import Mathlib

/-!
Verification of the linea-monorepo prover core against its specification.

The development shallowly embeds the Go sources:
  - prover/maths/common/smartvectors/smartvectors.go (SmartVector layer)
  - prover/utils/utils.go (IsPowerOfTwo, NextPowerOfTwo, DivCeil)
  - zkevm/full.go (FullZkEvm memoization and fullCompilationSuite)
  - prover/cmd/prover/cmd/setup.go (updateSetup)
Machine integers are modelled as Int (with the only possible 64-bit
wrap-around made explicit), fallible or panicking code returns Option or
Except, and the package-level sync.Once state is threaded explicitly.
-/

/-- Order of the scalar field of BLS12-377, the field used by the prover
(package prover/maths/field). -/
def fieldOrder : Nat := 8444461749428370424248824938781546531375899335154063827935233455917409239041

/-- Field elements, mirroring field.Element. -/
abbrev F : Type := ZMod fieldOrder

/-- Mirrors field.Zero(). -/
def fieldZero : F := 0

namespace smartvectors

/-- The closed set of SmartVector representations.  The four named
constructors mirror the four concrete implementations of the Go
SmartVector interface (Constant, Regular, PaddedCircularWindow, Rotated);
the extra constructor foreign stands for a value of any other dynamic type
implementing the interface, which the package functions treat as a
programming error. -/
inductive SmartVector where
  | Constant (val : F) (length : Nat)
  | Regular (v : List F)
  | PaddedCircularWindow (window : List F) (paddingVal : F) (offset totLen : Nat)
  | Rotated (v : List F) (offset : Nat)
  | foreign
deriving DecidableEq

/-- Modelled from the spec: the Len method of each variant (the per-variant
files are not part of the extracted sources).  Constant stores its length,
Regular is the dense length, PaddedCircularWindow stores the total length,
Rotated has the length of the underlying vector. -/
def SmartVector.Len : SmartVector → Nat
  | .Constant _ n => n
  | .Regular v => v.length
  | .PaddedCircularWindow _ _ _ t => t
  | .Rotated v _ => v.length
  | .foreign => 0

/-- Modelled from the spec: the bounds-checked Get method of each variant
(none models the out-of-range panic).  A PaddedCircularWindow holds a dense
window placed at a circular offset inside an implicitly padded vector; a
Rotated is a cyclic-rotation view over its underlying vector. -/
def SmartVector.Get : SmartVector → Nat → Option F
  | .Constant x n, i => if i < n then some x else none
  | .Regular v, i => v[i]?
  | .PaddedCircularWindow w p o t, i =>
      if i < t then
        if (i + t - o % t) % t < w.length then w[(i + t - o % t) % t]? else some p
      else none
  | .Rotated v o, i => if i < v.length then v[(i + o) % v.length]? else none
  | .foreign, _ => none

/-- Prefix of the write loop of PaddedCircularWindow.WriteInSlice: the
first m window entries overlaid on a buffer pre-filled with the padding
value. -/
def pcwWriteAux (w : List F) (p : F) (o t m : Nat) : List F :=
  (List.range m).foldl (fun acc k => acc.set ((o + k) % t) (w.getD k p)) (List.replicate t p)

/-- Modelled from the spec: the value written by WriteInSlice for each
variant.  Constant fills the buffer with its value, Regular copies its
storage, PaddedCircularWindow fills the buffer with the padding value
and then overlays the window circularly, Rotated writes the rotation of
its underlying vector. -/
def SmartVector.writeList : SmartVector → List F
  | .Constant x n => List.replicate n x
  | .Regular v => v
  | .PaddedCircularWindow w p o t => pcwWriteAux w p o t w.length
  | .Rotated v o => v.rotate o
  | .foreign => []

/-- Modelled from the spec: WriteInSlice writes the vector into dst and
panics (none) when dst does not have exactly length Len. -/
def SmartVector.WriteInSlice (s : SmartVector) (dst : List F) : Option (List F) :=
  if dst.length = s.Len then some s.writeList else none

/-- Modelled from the spec: IntoRegVecSaveAlloc materializes the vector
into a plain dense vector; only the values are modelled, not the
copy-avoidance. -/
def SmartVector.IntoRegVecSaveAlloc (s : SmartVector) : List F := s.writeList

/-- IntoRegVec allocates a fresh slice of length Len and fills it through
WriteInSlice (smartvectors.go). -/
def IntoRegVec (s : SmartVector) : Option (List F) :=
  s.WriteInSlice (List.replicate s.Len fieldZero)

/-- Modelled from the spec: NewRegular rejects (none) a construction from
length zero, which the package treats as a programming error, and
otherwise wraps the slice without copying. -/
def NewRegular (v : List F) : Option SmartVector :=
  if v.length = 0 then none else some (.Regular v)

/-- Modelled from the spec: NewConstant rejects non-positive lengths and
otherwise records the repeated value and the length. -/
def NewConstant (x : F) (length : Int) : Option SmartVector :=
  if length ≤ 0 then none else some (.Constant x length.toNat)

/-- Modelled from the spec: NewPaddedCircularWindow rejects a window at
least as large as the total length (a Regular or an illegal vector should
be used instead) and reduces the offset modulo the total length. -/
def NewPaddedCircularWindow (w : List F) (p : F) (offset totLen : Int) : Option SmartVector :=
  if totLen ≤ 0 ∨ (w.length : Int) ≥ totLen then none
  else some (.PaddedCircularWindow w p (offset % totLen).toNat totLen.toNat)

/-- AllocateRegular returns a newly allocated smart-vector of n zero
entries (smartvectors.go). -/
def AllocateRegular (n : Nat) : Option SmartVector :=
  NewRegular (List.replicate n fieldZero)

/-- Rand wraps a freshly drawn random slice in a Regular
(smartvectors.go); the random draw is taken as an argument. -/
def Rand (randomDraw : List F) : Option SmartVector := NewRegular randomDraw

/-- PseudoRand wraps a reproducible pseudo-random slice in a Regular
(smartvectors.go); the drawn slice is taken as an argument. -/
def PseudoRand (pseudoRandomDraw : List F) : Option SmartVector := NewRegular pseudoRandomDraw

/-- ForTest builds a Regular witness from explicit integer literals
(smartvectors.go). -/
def ForTest (xs : List Int) : Option SmartVector :=
  NewRegular (xs.map fun x => (x : F))

/-- LeftPadded creates a new vector padded on the left (smartvectors.go).
The target length is a Go int; none models the panic. -/
def LeftPadded (v : List F) (padding : F) (targetLen : Int) : Option SmartVector :=
  if (v.length : Int) > targetLen then none
  else if (v.length : Int) = targetLen then NewRegular v
  else if v.length = 0 then NewConstant padding targetLen
  else NewPaddedCircularWindow v padding (targetLen - (v.length : Int)) targetLen

/-- RightPadded creates a new vector padded on the right
(smartvectors.go). -/
def RightPadded (v : List F) (padding : F) (targetLen : Int) : Option SmartVector :=
  if (v.length : Int) > targetLen then none
  else if (v.length : Int) = targetLen then NewRegular v
  else if v.length = 0 then NewConstant padding targetLen
  else NewPaddedCircularWindow v padding 0 targetLen

/-- RightZeroPadded pads with zeroes on the right (smartvectors.go). -/
def RightZeroPadded (v : List F) (targetLen : Int) : Option SmartVector :=
  RightPadded v fieldZero targetLen

/-- LeftZeroPadded pads with zeroes on the left (smartvectors.go). -/
def LeftZeroPadded (v : List F) (targetLen : Int) : Option SmartVector :=
  LeftPadded v fieldZero targetLen

/-- Density of a smart-vector: the size of the concrete underlying vector
(smartvectors.go); none models the panic of the default branch on an
unexpected dynamic type. -/
def Density (v : SmartVector) : Option Nat :=
  match v with
  | .Constant _ _ => some 0
  | .PaddedCircularWindow w _ _ _ => some w.length
  | .Regular l => some l.length
  | .Rotated v _ => some v.length
  | .foreign => none

/-- Structural well-formedness of the four real variants, as guaranteed by
the package constructors: positive length, window strictly inside the
total length, offset reduced modulo the total length. -/
def SmartVector.isWellFormed : SmartVector → Bool
  | .Constant _ n => 0 < n
  | .Regular v => 0 < v.length
  | .PaddedCircularWindow w _ o t => 0 < w.length && w.length < t && o < t
  | .Rotated v _ => 0 < v.length
  | .foreign => false

end smartvectors

namespace utils

/-- IsPowerOfTwo from prover/utils/utils.go: n&(n-1) == 0 && n > 0, over a
64-bit Go int.  The decrement wraps around at the minimal int64, which is
made explicit here; bitwise and of two in-range values agrees with the
mathematical two's-complement Int.land. -/
def IsPowerOfTwo (n : Int) : Bool :=
  decide (Int.land n (if n = -(2 ^ 63) then 2 ^ 63 - 1 else n - 1) = 0) && decide (0 < n)

/-- DivCeil from prover/utils/utils.go, for non-negative operands. -/
def DivCeil (a b : Nat) : Nat :=
  if b * (a / b) < a then a / b + 1 else a / b

/-- One iteration block of the bit smearing in NextPowerOfTwo:
v |= v >> (1 << j), iterated for j = 0..5.  Go's >> on int is an
arithmetic shift, which Int.shiftRight implements. -/
def smearIter (v : Int) : Nat → Int
  | 0 => v
  | j + 1 => Int.lor (smearIter v j) (Int.shiftRight (smearIter v j) (2 ^ j))

/-- NextPowerOfTwo from prover/utils/utils.go: panics (none) when the
input exceeds 2^62, otherwise decrements, smears the bits downward with
the six or-shift steps, and increments.  No intermediate value overflows
int64 on the non-panicking path, so plain Int arithmetic is faithful. -/
def NextPowerOfTwo (n : Int) : Option Int :=
  if n > 2 ^ 62 then none else some (smearIter (n - 1) 6 + 1)

/-- The same smearing on Nat, used to reason about the non-negative
case. -/
def natSmearIter (x : Nat) : Nat → Nat
  | 0 => x
  | j + 1 => natSmearIter x j ||| (natSmearIter x j >>> (2 ^ j))

end utils

namespace zkevm

/-- SIS ring parameters (crypto/ringsis.Params). -/
structure RingSisParams where
  LogTwoBound : Nat
  LogTwoDegree : Nat
deriving DecidableEq

/-- Which commitment the Vortex compiler uses: the SIS lattice instance
passed through WithSISParams, or the MiMC hash selected by
ReplaceSisByMimc. -/
inductive VortexCommitment where
  | sis (params : RingSisParams)
  | mimcHash
deriving DecidableEq

/-- One entry of the compilation suite of zkevm/full.go, identified by the
compiler pass it applies and the parameters it is built with. -/
inductive Pass where
  | CompileMiMC
  | Arcane (minBound maxBound : Nat) (deterministic : Bool)
  | VortexCompile (foldingFactor numOpenedColumns : Nat) (commitment : VortexCommitment)
  | SelfRecurse
  | CleanUp
deriving DecidableEq

/-- A compilationSuite is an ordered list of compiler passes. -/
abbrev compilationSuite : Type := List Pass

/-- The SIS instance of zkevm/full.go, chosen to minimize the overhead of
recursion while keeping a power-of-two limb count. -/
def sisInstance : RingSisParams := ⟨16, 6⟩

/-- The compilation suite in use for the full prover (zkevm/full.go). -/
def fullCompilationSuite : compilationSuite :=
  [ .CompileMiMC,
    .Arcane (2 ^ 10) (2 ^ 19) false,
    .VortexCompile 2 256 (.sis sisInstance),
    -- First round of self-recursion
    .SelfRecurse,
    .CleanUp,
    .CompileMiMC,
    .Arcane (2 ^ 10) (2 ^ 18) false,
    .VortexCompile 2 256 (.sis sisInstance),
    -- Second round of self-recursion
    .SelfRecurse,
    .CleanUp,
    .CompileMiMC,
    .Arcane (2 ^ 10) (2 ^ 16) false,
    .VortexCompile 8 64 (.sis sisInstance),
    -- Third round of self-recursion
    .SelfRecurse,
    .CleanUp,
    .CompileMiMC,
    .Arcane (2 ^ 10) (2 ^ 13) false,
    .VortexCompile 8 64 .mimcHash ]

/-- keccakLimit of zkevm/full.go. -/
def keccakLimit : Nat := 2 ^ 13

/-- merkleProofLimit of zkevm/full.go. -/
def merkleProofLimit : Nat := 2 ^ 13

/-- The fields of config.TracesLimits read by FullZkEvm. -/
structure TracesLimits where
  Rom : Nat
  PrecompileEcrecoverEffectiveCalls : Nat
  BlockTransactions : Nat
  PrecompileModexpEffectiveCalls : Nat
  PrecompileEcaddEffectiveCalls : Nat
  PrecompileEcmulEffectiveCalls : Nat
  PrecompileEcpairingMillerLoops : Nat
  PrecompileEcpairingEffectiveCalls : Nat
  PrecompileEcpairingG2MembershipCalls : Nat
  PrecompileSha2Blocks : Nat
deriving DecidableEq

/-- accumulator.Settings. -/
structure AccumulatorSettings where
  MaxNumProofs : Nat
  Name : String
  MerkleTreeDepth : Nat
deriving DecidableEq

/-- statemanager.Settings. -/
structure StatemanagerSettings where
  AccSettings : AccumulatorSettings
  MiMCCodeHashSize : Nat
deriving DecidableEq

/-- wizard.VersionMetadata. -/
structure VersionMetadata where
  Title : String
  Version : String
deriving DecidableEq

/-- keccak.Settings. -/
structure KeccakSettings where
  MaxNumKeccakf : Nat
deriving DecidableEq

/-- ecdsa.Settings. -/
structure EcdsaSettings where
  MaxNbEcRecover : Nat
  MaxNbTx : Nat
  NbInputInstance : Nat
  NbCircuitInstances : Nat
deriving DecidableEq

/-- modexp.Settings. -/
structure ModexpSettings where
  MaxNbInstance256 : Nat
  MaxNbInstance4096 : Nat
deriving DecidableEq

/-- ecarith.Limits. -/
structure EcarithLimits where
  NbInputInstances : Nat
  NbCircuitInstances : Nat
deriving DecidableEq

/-- ecpair.Limits. -/
structure EcpairLimits where
  NbMillerLoopInputInstances : Nat
  NbMillerLoopCircuits : Nat
  NbFinalExpInputInstances : Nat
  NbFinalExpCircuits : Nat
  NbG2MembershipInputInstances : Nat
  NbG2MembershipCircuits : Nat
deriving DecidableEq

/-- sha2.Settings. -/
structure Sha2Settings where
  MaxNumSha2F : Nat
deriving DecidableEq

/-- The Settings literal assembled inside FullZkEvm (zkevm/full.go). -/
structure Settings where
  Traces : TracesLimits
  Statemanager : StatemanagerSettings
  CompilationSuite : compilationSuite
  Metadata : VersionMetadata
  Keccak : KeccakSettings
  Ecdsa : EcdsaSettings
  Modexp : ModexpSettings
  Ecadd : EcarithLimits
  Ecmul : EcarithLimits
  Ecpair : EcpairLimits
  Sha2 : Sha2Settings
deriving DecidableEq

/-- The settings value FullZkEvm builds from the traces-limits argument,
field for field after zkevm/full.go. -/
def settingsOf (tl : TracesLimits) : Settings where
  Traces := tl
  Statemanager :=
    { AccSettings :=
        { MaxNumProofs := merkleProofLimit
          Name := "SM_ACCUMULATOR"
          MerkleTreeDepth := 40 }
      MiMCCodeHashSize := tl.Rom }
  CompilationSuite := fullCompilationSuite
  Metadata := { Title := "linea/evm-execution/full", Version := "beta-v1" }
  Keccak := { MaxNumKeccakf := keccakLimit }
  Ecdsa :=
    { MaxNbEcRecover := tl.PrecompileEcrecoverEffectiveCalls
      MaxNbTx := tl.BlockTransactions
      NbInputInstance := 4
      NbCircuitInstances :=
        utils.DivCeil (tl.PrecompileEcrecoverEffectiveCalls + tl.BlockTransactions) 4 }
  Modexp :=
    { MaxNbInstance256 := tl.PrecompileModexpEffectiveCalls
      MaxNbInstance4096 := 1 }
  Ecadd :=
    { NbInputInstances := utils.DivCeil tl.PrecompileEcaddEffectiveCalls 28
      NbCircuitInstances := 28 }
  Ecmul :=
    { NbCircuitInstances := utils.DivCeil tl.PrecompileEcmulEffectiveCalls 6
      NbInputInstances := 6 }
  Ecpair :=
    { NbMillerLoopInputInstances := 1
      NbMillerLoopCircuits := tl.PrecompileEcpairingMillerLoops
      NbFinalExpInputInstances := 1
      NbFinalExpCircuits := tl.PrecompileEcpairingEffectiveCalls
      NbG2MembershipInputInstances := 6
      NbG2MembershipCircuits := utils.DivCeil tl.PrecompileEcpairingG2MembershipCalls 6 }
  Sha2 := { MaxNumSha2F := tl.PrecompileSha2Blocks }

/-- Modelled from the spec: NewZkEVM compiles the full zkEVM artifact from
the settings (the definition of ZkEvm and NewZkEVM is outside the
extracted sources); only its functional dependence on the settings is
relevant to memoization. -/
structure ZkEvm where
  settings : Settings
deriving DecidableEq

/-- Modelled from the spec: the compilation body guarded by the
sync.Once. -/
def NewZkEVM (s : Settings) : ZkEvm := ⟨s⟩

/-- The package-level mutable state of zkevm/full.go: the fullZkEvm
variable guarded by onceFullZkEvm.  The counter records how many times the
compilation body has run. -/
structure ZkEvmOnceState where
  fullZkEvm : Option ZkEvm
  compileCount : Nat
deriving DecidableEq

/-- The state at process start: no compiled instance, body never run. -/
def initialOnceState : ZkEvmOnceState := ⟨none, 0⟩

/-- FullZkEvm (zkevm/full.go): runs the compilation body under the
sync.Once guard and returns the memoized instance.  The once-state is
threaded explicitly; a second call finds the state set and returns the
stored instance without reading its own argument. -/
def FullZkEvm (tl : TracesLimits) (st : ZkEvmOnceState) : ZkEvm × ZkEvmOnceState :=
  match st.fullZkEvm with
  | some z => (z, st)
  | none =>
      let z := NewZkEVM (settingsOf tl)
      (z, ⟨some z, st.compileCount + 1⟩)

end zkevm

namespace cmd

/-- The outside-world results updateSetup depends on
(prover/cmd/prover/cmd/setup.go): the force flag, the result of compiling
the circuit (abstracted to an identifier), the circuit checksum recorded
in the manifest when one is readable, the digest computation, and the
results of MakeSetup and of writing the assets. -/
structure UpdateSetupEnv where
  fForce : Bool
  compileResult : Except String Nat
  manifestChecksum : Except String String
  circuitDigest : Nat → Except String String
  makeSetupResult : Except String Unit
  writeResult : Except String Unit

/-- What a run of updateSetup did: whether MakeSetup ran, whether the
assets were written to disk, and the returned error value. -/
structure UpdateSetupOutcome where
  ranSetup : Bool
  wroteAssets : Bool
  result : Except String Unit

/-- updateSetup (prover/cmd/prover/cmd/setup.go): compiles the circuit,
skips the setup when force is unset and a readable manifest records a
checksum equal to the digest of the compiled constraint system, and
otherwise runs MakeSetup and writes the assets. -/
def updateSetup (env : UpdateSetupEnv) : UpdateSetupOutcome :=
  match env.compileResult with
  | .error e => ⟨false, false, .error ("failed to compile circuit: " ++ e)⟩
  | .ok ccs =>
    let earlyReturn : Option (Except String Unit) :=
      if env.fForce then none
      else
        match env.manifestChecksum with
        | .error _ => none
        | .ok recorded =>
          match env.circuitDigest ccs with
          | .error e => some (.error ("failed to compute circuit digest: " ++ e))
          | .ok digest => if recorded = digest then some (.ok ()) else none
    match earlyReturn with
    | some r => ⟨false, false, r⟩
    | none =>
      match env.makeSetupResult with
      | .error e => ⟨true, false, .error ("failed to setup circuit: " ++ e)⟩
      | .ok _ =>
        match env.writeResult with
        | .error e => ⟨true, false, .error e⟩
        | .ok _ => ⟨true, true, .ok ()⟩

end cmd

open smartvectors

/-- The Vortex stages of the suite, in order, as
(foldingFactor, numOpenedColumns, commitment) triples. -/
def vortexStages : List (Nat × Nat × zkevm.VortexCommitment) :=
  zkevm.fullCompilationSuite.filterMap fun p =>
    match p with
    | .VortexCompile f n c => some (f, n, c)
    | _ => none

/-- The maxBound arguments of the Arcane stages of the suite, in order. -/
def arcaneMaxBounds : List Nat :=
  zkevm.fullCompilationSuite.filterMap fun p =>
    match p with
    | .Arcane _ mb _ => some mb
    | _ => none

/-- Whether a Vortex stage commits with the SIS instance. -/
def usesSis : zkevm.VortexCommitment → Bool
  | .sis _ => true
  | .mimcHash => false

/-- Each element is strictly greater than the next. -/
def strictlyDecreasing : List Nat → Bool
  | [] => true
  | [_] => true
  | a :: b :: rest => decide (b < a) && strictlyDecreasing (b :: rest)

/-- Each element is at least the next. -/
def nonIncreasing : List Nat → Bool
  | [] => true
  | [_] => true
  | a :: b :: rest => decide (b ≤ a) && nonIncreasing (b :: rest)

/-- Each element is at most the next. -/
def nonDecreasing : List Nat → Bool
  | [] => true
  | [_] => true
  | a :: b :: rest => decide (a ≤ b) && nonDecreasing (b :: rest)

/-- Claim C2 as stated: four rounds with strictly decreasing Arcane
maxBound, strictly decreasing openedColumnCount, strictly decreasing
folding factor, and SIS commitment everywhere but the final Vortex
stage. -/
def c2Stated : Prop :=
  vortexStages.length = 4 ∧
  strictlyDecreasing arcaneMaxBounds = true ∧
  strictlyDecreasing (vortexStages.map fun s => s.2.1) = true ∧
  strictlyDecreasing (vortexStages.map fun s => s.1) = true ∧
  (vortexStages.map fun s => usesSis s.2.2) = [true, true, true, false]

/-- One mimc/arcane/vortex round of the production suite, with the
minBound fixed at 2^10 and deterministic fixed at false as in
zkevm/full.go. -/
def roundBlock (maxBound folding opened : Nat) (c : zkevm.VortexCommitment) : List zkevm.Pass :=
  [.CompileMiMC, .Arcane (2 ^ 10) maxBound false, .VortexCompile folding opened c]

/-- C2, counterexample: the suite does not have strictly decreasing
opened-column counts (256, 256, 64, 64) nor decreasing folding factors
(2, 2, 8, 8 — the folding factor increases), so the claim as stated is
false. -/
theorem C2_counterexample : ¬ c2Stated := by
  unfold c2Stated
  decide

/-- C2, amended: the production suite is exactly four mimc/arcane/vortex
rounds separated by SelfRecursion-plus-Cleanup, the Arcane maxBound
strictly decreases over the rounds (2^19, 2^18, 2^16, 2^13), the
opened-column count is non-increasing (256, 256, 64, 64), the folding
factor is non-decreasing (2, 2, 8, 8), and only the final Vortex stage
replaces the SIS commitment by the MiMC hash. -/
theorem C2_suite_structure :
    zkevm.fullCompilationSuite =
      roundBlock (2 ^ 19) 2 256 (.sis zkevm.sisInstance) ++ [.SelfRecurse, .CleanUp] ++
      roundBlock (2 ^ 18) 2 256 (.sis zkevm.sisInstance) ++ [.SelfRecurse, .CleanUp] ++
      roundBlock (2 ^ 16) 8 64 (.sis zkevm.sisInstance) ++ [.SelfRecurse, .CleanUp] ++
      roundBlock (2 ^ 13) 8 64 .mimcHash ∧
    arcaneMaxBounds = [2 ^ 19, 2 ^ 18, 2 ^ 16, 2 ^ 13] ∧
    strictlyDecreasing arcaneMaxBounds = true ∧
    nonIncreasing (vortexStages.map fun s => s.2.1) = true ∧
    nonDecreasing (vortexStages.map fun s => s.1) = true ∧
    (vortexStages.map fun s => usesSis s.2.2) = [true, true, true, false] := by
  refine ⟨rfl, rfl, ?_, ?_, ?_, rfl⟩ <;> decide

/-- C1: the second call to FullZkEvm, with any traces-limits argument,
returns exactly the instance the first call produced and leaves the
once-state unchanged; after the first call the compilation body has run
exactly once, and the memoized instance is the one compiled from the
first call's parameters. -/
theorem C1_full_zkevm_memoized (tl1 tl2 : zkevm.TracesLimits) :
    (zkevm.FullZkEvm tl2 (zkevm.FullZkEvm tl1 zkevm.initialOnceState).2).1 =
      (zkevm.FullZkEvm tl1 zkevm.initialOnceState).1 ∧
    (zkevm.FullZkEvm tl2 (zkevm.FullZkEvm tl1 zkevm.initialOnceState).2).2 =
      (zkevm.FullZkEvm tl1 zkevm.initialOnceState).2 ∧
    (zkevm.FullZkEvm tl1 zkevm.initialOnceState).2.compileCount = 1 ∧
    (zkevm.FullZkEvm tl1 zkevm.initialOnceState).1 = zkevm.NewZkEVM (zkevm.settingsOf tl1) :=
  ⟨rfl, rfl, rfl, rfl⟩

/-- C3: Density returns 0 on a Constant, the window length on a
PaddedCircularWindow, the full length on a Regular, the underlying length
on a Rotated, and panics (none) on any other dynamic type. -/
theorem C3_density :
    (∀ x n, Density (.Constant x n) = some 0) ∧
    (∀ w p o t, Density (.PaddedCircularWindow w p o t) = some w.length) ∧
    (∀ l, Density (.Regular l) = some l.length) ∧
    (∀ v o, Density (.Rotated v o) = some v.length) ∧
    Density .foreign = none :=
  ⟨fun _ _ => rfl, fun _ _ _ _ => rfl, fun _ => rfl, fun _ _ => rfl, rfl⟩

/-- C10, counterexample: LeftPadded and RightPadded also panic on the
input v = [], targetLen = 0, although len(v) ≤ targetLen there, because
wrapping a length-zero slice is rejected. -/
theorem C10_counterexample :
    ((([] : List F).length : Int) ≤ 0) ∧
    LeftPadded ([] : List F) fieldZero 0 = none ∧
    RightPadded ([] : List F) fieldZero 0 = none := by decide

/-- C10, amended: LeftPadded and RightPadded panic exactly when
len(v) > targetLen or when both len(v) and targetLen are zero (a
forbidden length-zero construction); on every other input they return
normally. -/
theorem C10_padding_panic_condition (v : List F) (p : F) (targetLen : Int) :
    (LeftPadded v p targetLen = none ↔
      (v.length : Int) > targetLen ∨ (v.length = 0 ∧ targetLen = 0)) ∧
    (RightPadded v p targetLen = none ↔
      (v.length : Int) > targetLen ∨ (v.length = 0 ∧ targetLen = 0)) := by
  constructor <;>
  · simp only [LeftPadded, RightPadded, NewRegular, NewConstant, NewPaddedCircularWindow]
    split_ifs <;> simp_all <;> omega

/-- Claim C7 as stated: updateSetup skips exactly when force is unset and
a readable manifest records the digest of the compiled system, and in
every other case runs the setup and writes the assets. -/
def c7SkipCase (env : cmd.UpdateSetupEnv) : Prop :=
  env.fForce = false ∧
  ∃ ccs digest, env.compileResult = .ok ccs ∧ env.manifestChecksum = .ok digest ∧
    env.circuitDigest ccs = .ok digest

/-- The second half of claim C7 as stated, for the counterexample. -/
def c7Stated : Prop :=
  ∀ env : cmd.UpdateSetupEnv,
    (c7SkipCase env → cmd.updateSetup env = ⟨false, false, .ok ()⟩) ∧
    (¬ c7SkipCase env →
      (cmd.updateSetup env).ranSetup = true ∧ (cmd.updateSetup env).wroteAssets = true)

/-- C7, counterexample: with force unset, a readable manifest, and a
failing digest computation, updateSetup returns the digest error without
running the setup, although this input falls in the claim's
run-the-setup case. -/
theorem C7_counterexample : ¬ c7Stated := by
  intro h
  have hnot : ¬ c7SkipCase ⟨false, .ok 0, .ok "abc", fun _ => .error "boom", .ok (), .ok ()⟩ := by
    rintro ⟨-, ccs, digest, hc, hm, hd⟩
    cases hc
    exact absurd hd (by simp)
  have hrun := (h ⟨false, .ok 0, .ok "abc", fun _ => .error "boom", .ok (), .ok ()⟩).2 hnot
  have hfalse : (cmd.updateSetup
      ⟨false, .ok 0, .ok "abc", fun _ => .error "boom", .ok (), .ok ()⟩).ranSetup = false := rfl
  rw [hfalse] at hrun
  exact absurd hrun.1 (by simp)

/-- C7, amended: when force is unset and a readable manifest records
exactly the digest of the freshly compiled system, updateSetup returns
nil without running the setup and without writing assets.  When force is
set, the manifest is unreadable, or the recorded checksum differs from
the computed digest, it runs MakeSetup, and writes the assets provided
MakeSetup and the write succeed.  When force is unset, the manifest is
readable, but the digest computation fails, it returns that error without
running the setup — a case the original claim assigned to the
run-the-setup branch. -/
theorem C7_update_setup (env : cmd.UpdateSetupEnv) (ccs : Nat)
    (hc : env.compileResult = .ok ccs) :
    (∀ digest, env.fForce = false → env.manifestChecksum = .ok digest →
      env.circuitDigest ccs = .ok digest →
      cmd.updateSetup env = ⟨false, false, .ok ()⟩) ∧
    ((env.fForce = true ∨ (∃ e, env.manifestChecksum = .error e) ∨
        (∃ recorded digest, env.manifestChecksum = .ok recorded ∧
          env.circuitDigest ccs = .ok digest ∧ recorded ≠ digest)) →
      (cmd.updateSetup env).ranSetup = true ∧
      (env.makeSetupResult = .ok () → env.writeResult = .ok () →
        (cmd.updateSetup env).wroteAssets = true)) ∧
    (∀ recorded e, env.fForce = false → env.manifestChecksum = .ok recorded →
      env.circuitDigest ccs = .error e →
      cmd.updateSetup env =
        ⟨false, false, .error ("failed to compute circuit digest: " ++ e)⟩) := by
  obtain ⟨force, cr, mc, cd, ms, wr⟩ := env
  cases hc
  refine ⟨?_, ?_, ?_⟩
  · intro digest hf hm hd
    simp only at hf hm hd
    subst hf hm
    simp [cmd.updateSetup, hd]
  · rintro (hf | ⟨e, hm⟩ | ⟨recorded, digest, hm, hd, hne⟩)
    · simp only at hf
      subst hf
      cases ms with
      | error e => simp [cmd.updateSetup]
      | ok u =>
        cases wr with
        | error e => simp [cmd.updateSetup]
        | ok u2 => simp [cmd.updateSetup]
    · simp only at hm
      subst hm
      cases force <;> cases ms with
      | error e2 => simp [cmd.updateSetup]
      | ok u =>
        cases wr with
        | error e2 => simp [cmd.updateSetup]
        | ok u2 => simp [cmd.updateSetup]
    · simp only at hm hd
      subst hm
      cases force <;> cases ms with
      | error e2 => simp [cmd.updateSetup, hd, hne]
      | ok u =>
        cases wr with
        | error e2 => simp [cmd.updateSetup, hd, hne]
        | ok u2 => simp [cmd.updateSetup, hd, hne]
  · intro recorded e hf hm hd
    simp only at hf hm hd
    subst hf hm
    simp [cmd.updateSetup, hd]

/-- The write loop grows one set at a time. -/
theorem pcwWriteAux_succ (w : List F) (p : F) (o t m : Nat) :
    pcwWriteAux w p o t (m + 1) = (pcwWriteAux w p o t m).set ((o + m) % t) (w.getD m p) := by
  unfold pcwWriteAux
  rw [List.range_succ, List.foldl_append]
  rfl

/-- The write loop preserves the buffer length. -/
theorem pcwWriteAux_length (w : List F) (p : F) (o t : Nat) :
    ∀ m, (pcwWriteAux w p o t m).length = t := by
  intro m
  induction m with
  | zero => simp [pcwWriteAux]
  | succ m ih => rw [pcwWriteAux_succ, List.length_set, ih]

/-- Content of the partially written circular-window buffer: position j
holds window entry (j + t - o) % t when that index has already been
written, and the padding value otherwise. -/
theorem pcwWriteAux_getElem? (w : List F) (p : F) (o t : Nat) (ho : o < t)
    (hw : w.length < t) :
    ∀ m, m ≤ w.length → ∀ j, j < t →
      (pcwWriteAux w p o t m)[j]? =
        if (j + t - o) % t < m then some (w.getD ((j + t - o) % t) p) else some p := by
  intro m
  induction m with
  | zero =>
    intro hm j hj
    simp [pcwWriteAux, List.getElem?_replicate, hj]
  | succ m ih =>
    intro hm j hj
    rw [pcwWriteAux_succ, List.getElem?_set]
    by_cases he : (o + m) % t = j
    · rw [if_pos he, if_pos (by rw [pcwWriteAux_length]; exact Nat.mod_lt _ (by omega))]
      have hkj : (j + t - o) % t = m := by
        subst he
        rcases Nat.lt_or_ge (o + m) t with hc | hc
        · rw [Nat.mod_eq_of_lt hc, show o + m + t - o = m + t by omega, Nat.add_mod_right]
          exact Nat.mod_eq_of_lt (by omega)
        · rw [Nat.mod_eq_sub_mod hc, Nat.mod_eq_of_lt (show o + m - t < t by omega),
            show o + m - t + t - o = m by omega]
          exact Nat.mod_eq_of_lt (by omega)
      rw [hkj, if_pos (by omega)]
    · rw [if_neg he, ih (by omega) j hj]
      have hne : (j + t - o) % t ≠ m := by
        intro hcon
        apply he
        have hoj : (o + (j + t - o) % t) % t = j := by
          rw [Nat.add_mod_mod, show o + (j + t - o) = j + t by omega, Nat.add_mod_right]
          exact Nat.mod_eq_of_lt hj
        rw [← hcon]
        rw [hcon] at hoj
        rw [hcon]
        exact hoj
      by_cases hlt : (j + t - o) % t < m
      · rw [if_pos hlt, if_pos (by omega)]
      · rw [if_neg hlt, if_neg (by omega)]

/-- C5: materializing any well-formed SmartVector to a dense vector
(IntoRegVecSaveAlloc, equivalently IntoRegVec through WriteInSlice) and
re-wrapping it as a Regular reproduces the length and every entry. -/
theorem C5_materialize_roundtrip (s : SmartVector) (h : s.isWellFormed = true) :
    IntoRegVec s = some s.IntoRegVecSaveAlloc ∧
    (SmartVector.Regular s.IntoRegVecSaveAlloc).Len = s.Len ∧
    ∀ i, i < s.Len → (SmartVector.Regular s.IntoRegVecSaveAlloc).Get i = s.Get i := by
  have hlen : s.writeList.length = s.Len := by
    cases s with
    | Constant x n => simp [SmartVector.writeList, SmartVector.Len]
    | Regular v => rfl
    | PaddedCircularWindow w p o t =>
      simp [SmartVector.writeList, SmartVector.Len, pcwWriteAux_length]
    | Rotated v o => simp [SmartVector.writeList, SmartVector.Len, List.length_rotate]
    | foreign => simp [SmartVector.isWellFormed] at h
  refine ⟨?_, hlen, ?_⟩
  · unfold IntoRegVec SmartVector.WriteInSlice
    rw [if_pos (by rw [List.length_replicate])]
    rfl
  · intro i hi
    show s.writeList[i]? = s.Get i
    cases s with
    | Constant x n =>
      simp only [SmartVector.Len] at hi
      simp [SmartVector.writeList, SmartVector.Get, List.getElem?_replicate, hi]
    | Regular v => rfl
    | PaddedCircularWindow w p o t =>
      simp only [SmartVector.isWellFormed, Bool.and_eq_true, decide_eq_true_eq] at h
      obtain ⟨⟨h1, h2⟩, h3⟩ := h
      simp only [SmartVector.Len] at hi
      show (pcwWriteAux w p o t w.length)[i]? = _
      rw [pcwWriteAux_getElem? w p o t h3 h2 w.length le_rfl i hi]
      simp only [SmartVector.Get, if_pos hi, Nat.mod_eq_of_lt h3]
      by_cases hc : (i + t - o) % t < w.length
      · rw [if_pos hc, if_pos hc, List.getElem?_eq_getElem hc, List.getD_eq_getElem w p hc]
      · rw [if_neg hc, if_neg hc]
    | Rotated v o =>
      simp only [SmartVector.isWellFormed, decide_eq_true_eq] at h
      simp only [SmartVector.Len] at hi
      show (v.rotate o)[i]? = _
      have hi2 : i < (v.rotate o).length := by rw [List.length_rotate]; exact hi
      rw [List.getElem?_eq_getElem hi2, List.getElem_rotate v o i hi2]
      simp only [SmartVector.Get, if_pos hi]
      rw [List.getElem?_eq_getElem (Nat.mod_lt _ (by omega))]
    | foreign => simp [SmartVector.isWellFormed] at h

/-- C5 witness: the round-trip theorem evaluated on a concrete padded
circular window. -/
theorem C5_materialize_roundtrip_witness :
    (SmartVector.Regular
        (SmartVector.PaddedCircularWindow [(3 : F)] 9 2 4).IntoRegVecSaveAlloc).Get 2 =
      (SmartVector.PaddedCircularWindow [(3 : F)] 9 2 4).Get 2 :=
  (C5_materialize_roundtrip (SmartVector.PaddedCircularWindow [(3 : F)] 9 2 4)
    (by decide)).2.2 2 (by decide)

/-- C4: padding a slice into a target length yields the target length,
the padding value on the padded side and the original entries on the
other, and selects the cheapest exact representation: the Regular wrapping
of v itself at full length, a Constant for an empty slice, and otherwise a
PaddedCircularWindow whose Density is the slice length. -/
theorem C4_padded_selection (v : List F) (p : F) (targetLen : Int)
    (h2 : (v.length : Int) ≤ targetLen) (h3 : 0 < targetLen) :
    (∃ svL, LeftPadded v p targetLen = some svL ∧
      svL.Len = targetLen.toNat ∧
      (∀ i, i < targetLen.toNat →
        svL.Get i = if i < targetLen.toNat - v.length then some p
          else v[i - (targetLen.toNat - v.length)]?) ∧
      ((v.length : Int) = targetLen → svL = .Regular v) ∧
      (v.length = 0 → svL = .Constant p targetLen.toNat) ∧
      (0 < v.length → (v.length : Int) < targetLen →
        svL = .PaddedCircularWindow v p (targetLen.toNat - v.length) targetLen.toNat ∧
        Density svL = some v.length)) ∧
    (∃ svR, RightPadded v p targetLen = some svR ∧
      svR.Len = targetLen.toNat ∧
      (∀ i, i < targetLen.toNat →
        svR.Get i = if i < v.length then v[i]? else some p) ∧
      ((v.length : Int) = targetLen → svR = .Regular v) ∧
      (v.length = 0 → svR = .Constant p targetLen.toNat) ∧
      (0 < v.length → (v.length : Int) < targetLen →
        svR = .PaddedCircularWindow v p 0 targetLen.toNat ∧
        Density svR = some v.length)) := by
  have htL : v.length ≤ targetLen.toNat := by omega
  have ht0 : 0 < targetLen.toNat := by omega
  by_cases hEq : (v.length : Int) = targetLen
  · have hLt : v.length = targetLen.toNat := by omega
    have hL0 : v.length ≠ 0 := by omega
    constructor
    · refine ⟨.Regular v, ?_, ?_, ?_, fun _ => rfl, fun hc => absurd hc hL0, ?_⟩
      · unfold LeftPadded NewRegular
        rw [if_neg (by omega), if_pos hEq, if_neg hL0]
      · exact hLt
      · intro i hi
        rw [show targetLen.toNat - v.length = 0 by omega, if_neg (by omega)]
        show v[i]? = _
        rw [Nat.sub_zero]
      · intro _ hc
        exact absurd hc (by omega)
    · refine ⟨.Regular v, ?_, ?_, ?_, fun _ => rfl, fun hc => absurd hc hL0, ?_⟩
      · unfold RightPadded NewRegular
        rw [if_neg (by omega), if_pos hEq, if_neg hL0]
      · exact hLt
      · intro i hi
        rw [if_pos (by omega)]
        rfl
      · intro _ hc
        exact absurd hc (by omega)
  · have hLlt : (v.length : Int) < targetLen := lt_of_le_of_ne h2 hEq
    by_cases hL0 : v.length = 0
    · constructor
      · refine ⟨.Constant p targetLen.toNat, ?_, rfl, ?_, fun hc => absurd hc hEq,
          fun _ => rfl, fun hc => absurd hL0 (by omega)⟩
        · unfold LeftPadded NewConstant
          rw [if_neg (by omega), if_neg hEq, if_pos hL0, if_neg (by omega)]
        · intro i hi
          rw [if_pos (by omega)]
          show (if i < targetLen.toNat then some p else none) = some p
          rw [if_pos hi]
      · refine ⟨.Constant p targetLen.toNat, ?_, rfl, ?_, fun hc => absurd hc hEq,
          fun _ => rfl, fun hc => absurd hL0 (by omega)⟩
        · unfold RightPadded NewConstant
          rw [if_neg (by omega), if_neg hEq, if_pos hL0, if_neg (by omega)]
        · intro i hi
          rw [if_neg (by omega)]
          show (if i < targetLen.toNat then some p else none) = some p
          rw [if_pos hi]
    · have hLpos : 0 < v.length := by omega
      have hofs : targetLen - (v.length : Int) = ((targetLen.toNat - v.length : Nat) : Int) := by
        omega
      constructor
      · refine ⟨.PaddedCircularWindow v p (targetLen.toNat - v.length) targetLen.toNat,
          ?_, rfl, ?_, fun hc => absurd hc hEq, fun hc => absurd hc hL0,
          fun _ _ => ⟨rfl, rfl⟩⟩
        · unfold LeftPadded NewPaddedCircularWindow
          rw [if_neg (by omega), if_neg hEq, if_neg hL0, if_neg (by omega), hofs,
            Int.emod_eq_of_lt (by omega) (by omega)]
          rw [show (((targetLen.toNat - v.length : Nat) : Int)).toNat
            = targetLen.toNat - v.length by omega]
        · intro i hi
          show (if i < targetLen.toNat then _ else none) = _
          rw [if_pos hi]
          have ho : targetLen.toNat - v.length < targetLen.toNat := by omega
          rw [Nat.mod_eq_of_lt ho,
            show i + targetLen.toNat - (targetLen.toNat - v.length) = i + v.length by omega]
          by_cases hc : i < targetLen.toNat - v.length
          · rw [Nat.mod_eq_of_lt (by omega), if_neg (by omega), if_pos hc]
          · rw [Nat.mod_eq_sub_mod (by omega), Nat.mod_eq_of_lt (by omega), if_pos (by omega),
              if_neg hc, show i + v.length - targetLen.toNat
                = i - (targetLen.toNat - v.length) by omega]
      · refine ⟨.PaddedCircularWindow v p 0 targetLen.toNat,
          ?_, rfl, ?_, fun hc => absurd hc hEq, fun hc => absurd hc hL0,
          fun _ _ => ⟨rfl, rfl⟩⟩
        · unfold RightPadded NewPaddedCircularWindow
          rw [if_neg (by omega), if_neg hEq, if_neg hL0, if_neg (by omega),
            Int.zero_emod, Int.toNat_zero]
        · intro i hi
          show (if i < targetLen.toNat then _ else none) = _
          rw [if_pos hi]
          rw [Nat.zero_mod, Nat.sub_zero, Nat.add_mod_right, Nat.mod_eq_of_lt hi]

/-- C4 witness: the selection theorem applied to a one-entry slice padded
to length three. -/
theorem C4_padded_selection_witness :
    ((([(5 : F)] : List F).length : Int) ≤ 3 ∧ (0 : Int) < 3) ∧
      ((∃ svL, LeftPadded [(5 : F)] 7 3 = some svL ∧
        svL.Len = (3 : Int).toNat ∧
        (∀ i, i < (3 : Int).toNat →
          svL.Get i = if i < (3 : Int).toNat - [(5 : F)].length then some (7 : F)
            else [(5 : F)][i - ((3 : Int).toNat - [(5 : F)].length)]?) ∧
        (([(5 : F)].length : Int) = 3 → svL = .Regular [(5 : F)]) ∧
        ([(5 : F)].length = 0 → svL = .Constant 7 (3 : Int).toNat) ∧
        (0 < [(5 : F)].length → ([(5 : F)].length : Int) < 3 →
          svL = .PaddedCircularWindow [(5 : F)] 7 ((3 : Int).toNat - [(5 : F)].length)
            (3 : Int).toNat ∧
          Density svL = some [(5 : F)].length)) ∧
      (∃ svR, RightPadded [(5 : F)] 7 3 = some svR ∧
        svR.Len = (3 : Int).toNat ∧
        (∀ i, i < (3 : Int).toNat →
          svR.Get i = if i < [(5 : F)].length then [(5 : F)][i]? else some (7 : F)) ∧
        (([(5 : F)].length : Int) = 3 → svR = .Regular [(5 : F)]) ∧
        ([(5 : F)].length = 0 → svR = .Constant 7 (3 : Int).toNat) ∧
        (0 < [(5 : F)].length → ([(5 : F)].length : Int) < 3 →
          svR = .PaddedCircularWindow [(5 : F)] 7 0 (3 : Int).toNat ∧
          Density svR = some [(5 : F)].length))) :=
  ⟨⟨by norm_num, by norm_num⟩, C4_padded_selection [(5 : F)] 7 3 (by norm_num) (by norm_num)⟩

/-- Any successful NewRegular construction has positive length. -/
theorem NewRegular_some_len {v : List F} {sv : SmartVector}
    (h : NewRegular v = some sv) : 0 < sv.Len := by
  unfold NewRegular at h
  split at h
  · exact absurd h (by simp)
  · cases h
    simpa [SmartVector.Len] using Nat.pos_of_ne_zero (by assumption)

/-- Any successful NewConstant construction has positive length. -/
theorem NewConstant_some_len {x : F} {n : Int} {sv : SmartVector}
    (h : NewConstant x n = some sv) : 0 < sv.Len := by
  unfold NewConstant at h
  split at h
  · exact absurd h (by simp)
  · cases h
    simp only [SmartVector.Len]
    omega

/-- Any successful NewPaddedCircularWindow construction has positive
length. -/
theorem NewPaddedCircularWindow_some_len {w : List F} {p : F} {o t : Int} {sv : SmartVector}
    (h : NewPaddedCircularWindow w p o t = some sv) : 0 < sv.Len := by
  unfold NewPaddedCircularWindow at h
  split at h
  · exact absurd h (by simp)
  · cases h
    simp only [SmartVector.Len]
    omega

/-- Any successful LeftPadded or RightPadded construction has positive
length. -/
theorem padded_some_len {v : List F} {p : F} {T : Int} {sv : SmartVector}
    (h : LeftPadded v p T = some sv ∨ RightPadded v p T = some sv) : 0 < sv.Len := by
  rcases h with h | h <;>
  · first
      | unfold LeftPadded at h
      | unfold RightPadded at h
    split at h
    · exact absurd h (by simp)
    · split at h
      · exact NewRegular_some_len h
      · split at h
        · exact NewConstant_some_len h
        · exact NewPaddedCircularWindow_some_len h

/-- C6: every package constructor yields a SmartVector of positive length
whenever it returns one, and every attempt to construct a length-zero
SmartVector is rejected (none) as a programming error. -/
theorem C6_constructors_positive_length :
    (∀ n sv, AllocateRegular n = some sv → 0 < sv.Len) ∧
    AllocateRegular 0 = none ∧
    (∀ draw sv, smartvectors.Rand draw = some sv → 0 < sv.Len) ∧
    smartvectors.Rand [] = none ∧
    (∀ draw sv, smartvectors.PseudoRand draw = some sv → 0 < sv.Len) ∧
    smartvectors.PseudoRand [] = none ∧
    (∀ xs sv, ForTest xs = some sv → 0 < sv.Len) ∧
    ForTest [] = none ∧
    (∀ v sv, NewRegular v = some sv → 0 < sv.Len) ∧
    NewRegular [] = none ∧
    (∀ v p T sv, LeftPadded v p T = some sv → 0 < sv.Len) ∧
    (∀ v p T sv, RightPadded v p T = some sv → 0 < sv.Len) ∧
    (∀ v T sv, LeftZeroPadded v T = some sv → 0 < sv.Len) ∧
    (∀ v T sv, RightZeroPadded v T = some sv → 0 < sv.Len) ∧
    (∀ p : F, LeftPadded [] p 0 = none) ∧
    (∀ p : F, RightPadded [] p 0 = none) := by
  refine ⟨fun n sv h => NewRegular_some_len h, rfl,
    fun d sv h => NewRegular_some_len h, rfl,
    fun d sv h => NewRegular_some_len h, rfl,
    fun xs sv h => NewRegular_some_len h, rfl,
    fun v sv h => NewRegular_some_len h, rfl,
    fun v p T sv h => padded_some_len (Or.inl h),
    fun v p T sv h => padded_some_len (Or.inr h),
    fun v T sv h => padded_some_len (Or.inl h),
    fun v T sv h => padded_some_len (Or.inr h),
    fun p => ?_, fun p => ?_⟩ <;>
  · norm_num [LeftPadded, RightPadded, NewRegular]

/-- C6 witness: a length-one allocation is accepted and has positive
length. -/
theorem C6_constructors_positive_length_witness :
    0 < (SmartVector.Regular (List.replicate 1 fieldZero)).Len :=
  C6_constructors_positive_length.1 1 (SmartVector.Regular (List.replicate 1 fieldZero))
    (by decide)

/-- A number lying between consecutive powers of two has the
corresponding bit set. -/
theorem testBit_true_of_le_of_lt {a j : Nat} (h1 : 2 ^ j ≤ a) (h2 : a < 2 ^ (j + 1)) :
    a.testBit j = true := by
  have hp : 0 < 2 ^ j := Nat.pos_pow_of_pos j (by norm_num)
  have hdiv1 : 1 ≤ a / 2 ^ j := (Nat.one_le_div_iff hp).mpr h1
  have hdiv2 : a / 2 ^ j < 2 := by
    rw [Nat.div_lt_iff_lt_mul hp]
    rw [pow_succ] at h2
    omega
  have hdiv : a / 2 ^ j = 1 := by omega
  rw [Nat.testBit_to_div_mod, hdiv]
  decide

/-- The most significant bit of a positive number is set. -/
theorem msb_testBit {m : Nat} (hm : 0 < m) : m.testBit (m.size - 1) = true := by
  have hs : 0 < m.size := Nat.size_pos.mpr hm
  have h1 : 2 ^ (m.size - 1) ≤ m := Nat.lt_size.mp (by omega)
  have h2 : m < 2 ^ (m.size - 1 + 1) := by
    rw [Nat.sub_add_cancel hs]
    exact Nat.lt_size_self m
  exact testBit_true_of_le_of_lt h1 h2

/-- A positive number satisfies n&(n-1) == 0 exactly when it is a power
of two. -/
theorem land_pred_eq_zero_iff {m : Nat} (hm : 0 < m) :
    m &&& (m - 1) = 0 ↔ ∃ k, m = 2 ^ k := by
  constructor
  · intro h
    refine ⟨m.size - 1, ?_⟩
    by_contra hne
    have hs : 0 < m.size := Nat.size_pos.mpr hm
    have h1 : 2 ^ (m.size - 1) ≤ m := Nat.lt_size.mp (by omega)
    have h2 : m < 2 ^ (m.size - 1 + 1) := by
      rw [Nat.sub_add_cancel hs]
      exact Nat.lt_size_self m
    have hgt : 2 ^ (m.size - 1) < m := lt_of_le_of_ne h1 fun he => hne he.symm
    have hb1 : m.testBit (m.size - 1) = true := testBit_true_of_le_of_lt h1 h2
    have hb2 : (m - 1).testBit (m.size - 1) = true :=
      testBit_true_of_le_of_lt (by omega) (by omega)
    have hland := Nat.testBit_land m (m - 1) (m.size - 1)
    rw [h, Nat.zero_testBit, hb1, hb2] at hland
    simp at hland
  · rintro ⟨k, rfl⟩
    apply Nat.eq_of_testBit_eq
    intro i
    rw [Nat.testBit_land, Nat.zero_testBit, Nat.testBit_two_pow, Nat.testBit_two_pow_sub_one]
    by_cases h : k = i
    · subst h
      simp
    · simp [h]

/-- C8: over the 64-bit int range, IsPowerOfTwo returns true exactly on
the positive exact powers of two; it returns false on zero and on every
negative input. -/
theorem C8_is_power_of_two (n : Int) (h1 : -(2 ^ 63) ≤ n) (h2 : n < 2 ^ 63) :
    utils.IsPowerOfTwo n = true ↔ 0 < n ∧ ∃ k : Nat, n = 2 ^ k := by
  unfold utils.IsPowerOfTwo
  rw [Bool.and_eq_true, decide_eq_true_eq, decide_eq_true_eq]
  constructor
  · rintro ⟨hland, hpos⟩
    refine ⟨hpos, ?_⟩
    lift n to Nat using hpos.le with m
    have hm : 0 < m := by exact_mod_cast hpos
    rw [if_neg (by omega)] at hland
    rw [show (m : Int) - 1 = ((m - 1 : Nat) : Int) by omega] at hland
    have hland2 : ((m &&& (m - 1) : Nat) : Int) = 0 := hland
    obtain ⟨k, hk⟩ := (land_pred_eq_zero_iff hm).mp (by exact_mod_cast hland2)
    exact ⟨k, by rw [hk, Nat.cast_pow]; norm_num⟩
  · rintro ⟨hpos, k, hk⟩
    refine ⟨?_, hpos⟩
    have hk2 : n = ((2 ^ k : Nat) : Int) := by rw [hk, Nat.cast_pow]; norm_num
    have hneg : ¬((2 ^ k : Nat) : Int) = -(2 ^ 63) := by
      intro hcon
      have h0 : (0 : Int) ≤ ((2 ^ k : Nat) : Int) := Int.natCast_nonneg _
      rw [hcon] at h0
      norm_num at h0
    rw [hk2, if_neg hneg, show ((2 ^ k : Nat) : Int) - 1 = ((2 ^ k - 1 : Nat) : Int)
      by have := Nat.pos_pow_of_pos k (show 0 < 2 by norm_num); omega]
    have : Int.land ((2 ^ k : Nat) : Int) ((2 ^ k - 1 : Nat) : Int) =
        (((2 ^ k) &&& (2 ^ k - 1) : Nat) : Int) := rfl
    rw [this, (land_pred_eq_zero_iff (Nat.pos_pow_of_pos k (by norm_num))).mpr ⟨k, rfl⟩]
    rfl

/-- C8 witness: 4 is recognized as a power of two. -/
theorem C8_is_power_of_two_witness : utils.IsPowerOfTwo 4 = true :=
  (C8_is_power_of_two 4 (by norm_num) (by norm_num)).mpr ⟨by norm_num, 2, by norm_num⟩

/-- Bit i of the j-th smearing step is the disjunction of the source bits
i..i+2^j-1. -/
theorem natSmearIter_testBit (x : Nat) :
    ∀ j i, (utils.natSmearIter x j).testBit i = true ↔
      ∃ d, d < 2 ^ j ∧ x.testBit (i + d) = true := by
  intro j
  induction j with
  | zero =>
    intro i
    constructor
    · intro h
      exact ⟨0, Nat.one_pos, by simpa using h⟩
    · rintro ⟨d, hd, h⟩
      have hd0 : d = 0 := by omega
      subst hd0
      simpa using h
  | succ j ih =>
    intro i
    show ((utils.natSmearIter x j) ||| ((utils.natSmearIter x j) >>> 2 ^ j)).testBit i = true ↔ _
    rw [Nat.testBit_lor, Nat.testBit_shiftRight, Bool.or_eq_true, ih i, ih (2 ^ j + i)]
    constructor
    · rintro (⟨d, hd, h⟩ | ⟨d, hd, h⟩)
      · exact ⟨d, by rw [pow_succ]; omega, h⟩
      · exact ⟨2 ^ j + d, by rw [pow_succ]; omega,
          by rwa [show i + (2 ^ j + d) = 2 ^ j + i + d by omega]⟩
    · rintro ⟨d, hd, h⟩
      rw [pow_succ] at hd
      by_cases hc : d < 2 ^ j
      · exact Or.inl ⟨d, hc, h⟩
      · exact Or.inr ⟨d - 2 ^ j, by omega,
          by rwa [show 2 ^ j + i + (d - 2 ^ j) = i + d by omega]⟩

/-- The six or-shift steps saturate every bit below the most significant
one: the result is 2^size - 1. -/
theorem natSmear_eq (x : Nat) (hx : x < 2 ^ 63) :
    utils.natSmearIter x 6 = 2 ^ x.size - 1 := by
  have hsize : x.size ≤ 63 := Nat.size_le.mpr hx
  apply Nat.eq_of_testBit_eq
  intro i
  rw [Nat.testBit_two_pow_sub_one]
  by_cases hi : i < x.size
  · have hx0 : 0 < x := by
      rcases Nat.eq_zero_or_pos x with h | h
      · subst h
        simp [Nat.size_zero] at hi
      · exact h
    have hset : (utils.natSmearIter x 6).testBit i = true := by
      rw [natSmearIter_testBit]
      refine ⟨x.size - 1 - i, by norm_num; omega, ?_⟩
      rw [show i + (x.size - 1 - i) = x.size - 1 by omega]
      exact msb_testBit hx0
    rw [hset, decide_eq_true hi]
  · have hunset : (utils.natSmearIter x 6).testBit i = false := by
      cases hb : (utils.natSmearIter x 6).testBit i with
      | false => rfl
      | true =>
        obtain ⟨d, hd, h⟩ := (natSmearIter_testBit x 6 i).mp hb
        have hlt : x < 2 ^ (i + d) :=
          lt_of_lt_of_le (Nat.lt_size_self x) (Nat.pow_le_pow_right (by norm_num) (by omega))
        rw [Nat.testBit_lt_two_pow hlt] at h
        exact absurd h (by simp)
    rw [hunset, decide_eq_false hi]

/-- The Int smearing agrees with the Nat smearing on non-negative
input. -/
theorem smearIter_ofNat (x : Nat) : ∀ j, utils.smearIter (x : Int) j = (utils.natSmearIter x j : Int) := by
  intro j
  induction j with
  | zero => rfl
  | succ j ih =>
    show Int.lor (utils.smearIter ↑x j) (Int.shiftRight (utils.smearIter ↑x j) (2 ^ j)) = _
    rw [ih]
    rw [show Int.shiftRight ((utils.natSmearIter x j : Nat) : Int) (2 ^ j) =
      ((utils.natSmearIter x j >>> 2 ^ j : Nat) : Int) from rfl]
    rfl

/-- C9: NextPowerOfTwo panics (none) on every input above 2^62; on inputs
in [0, 2^62] it returns 0 for 0 and, for positive n, the least power of
two greater than or equal to n. -/
theorem C9_next_power_of_two (n : Int) :
    (2 ^ 62 < n → utils.NextPowerOfTwo n = none) ∧
    (0 ≤ n → n ≤ 2 ^ 62 →
      ∃ r : Int, utils.NextPowerOfTwo n = some r ∧
        (n = 0 → r = 0) ∧
        (0 < n → (∃ k : Nat, r = 2 ^ k) ∧ n ≤ r ∧ ∀ k : Nat, n ≤ 2 ^ k → r ≤ 2 ^ k)) := by
  constructor
  · intro h
    unfold utils.NextPowerOfTwo
    rw [if_pos h]
  · intro h0 h62
    rcases eq_or_lt_of_le h0 with hz | hpos
    · refine ⟨0, ?_, fun _ => rfl, fun hc => absurd hc (by omega)⟩
      rw [← hz]
      decide
    · set m : Nat := (n - 1).toNat with hm
      have hn : n = (m : Int) + 1 := by omega
      have h62n : (2 : Int) ^ 62 = ((2 ^ 62 : Nat) : Int) := by rw [Nat.cast_pow]; norm_num
      have hmlt : m < 2 ^ 63 := by
        rw [h62n] at h62
        have : (2 : Nat) ^ 62 < 2 ^ 63 := by norm_num
        omega
      refine ⟨((2 ^ m.size : Nat) : Int), ?_, fun hc => absurd hc (by omega), fun _ => ?_⟩
      · unfold utils.NextPowerOfTwo
        rw [if_neg (by omega)]
        rw [show n - 1 = (m : Int) by omega, smearIter_ofNat, natSmear_eq m hmlt]
        have hpow : 1 ≤ 2 ^ m.size := Nat.pos_pow_of_pos m.size (by norm_num)
        rw [show ((2 ^ m.size - 1 : Nat) : Int) + 1 = ((2 ^ m.size : Nat) : Int) by omega]
      · refine ⟨⟨m.size, by rw [Nat.cast_pow]; norm_num⟩, ?_, ?_⟩
        · have := Nat.lt_size_self m
          omega
        · intro k hk
          have hk2 : (2 : Int) ^ k = ((2 ^ k : Nat) : Int) := by rw [Nat.cast_pow]; norm_num
          rw [hk2] at hk ⊢
          have hmk : m < 2 ^ k := by omega
          have := Nat.size_le.mpr hmk
          have := Nat.pow_le_pow_right (show 0 < 2 by norm_num) this
          omega

/-- C9 witness: the theorem instantiated at 5, whose next power of two is
computed. -/
theorem C9_next_power_of_two_witness :
    (0 : Int) ≤ 5 ∧ (5 : Int) ≤ 2 ^ 62 ∧
      ∃ r : Int, utils.NextPowerOfTwo 5 = some r ∧
        ((5 : Int) = 0 → r = 0) ∧
        ((0 : Int) < 5 → (∃ k : Nat, r = 2 ^ k) ∧ 5 ≤ r ∧ ∀ k : Nat, (5 : Int) ≤ 2 ^ k → r ≤ 2 ^ k) :=
  ⟨by norm_num, by norm_num, (C9_next_power_of_two 5).2 (by norm_num) (by norm_num)⟩

/-- C7 witness: the amended theorem applied to a concrete environment
with the force flag set. -/
theorem C7_update_setup_witness :
    (cmd.updateSetup ⟨true, .ok 0, .error "nofile", fun _ => .ok "d", .ok (), .ok ()⟩).ranSetup
      = true :=
  ((C7_update_setup ⟨true, .ok 0, .error "nofile", fun _ => .ok "d", .ok (), .ok ()⟩ 0 rfl).2.1
    (Or.inl rfl)).1
